import Mathlib

/-!
Verification of the SpectrumSynth repository's spectrum synthesizer against its
specification.  The Python sources (`elements.py`, `generate_elements_data.py`,
`synthSpectrum.py`, `interactive_spectrum.py`) are embedded shallowly below:
pandas DataFrames of cross-section samples become lists of `Sample` records,
binding-energy tables become lists of `BindingEntry`, and the synthesizer loop
of `synthSpectrum_interactive` becomes a pure function over those lists.
Floating-point values are modelled by rationals; every decimal literal in the
sources is exact in ℚ.
-/

/-- One row of a cross-section DataFrame: the 7-column schema
`Photon Energy, cs0, cs1, cs2, beta0, beta1, beta2` used by `safe_read_csv`. -/
structure Sample where
  photon_energy : ℚ
  cs0 : ℚ
  cs1 : ℚ
  cs2 : ℚ
  beta0 : ℚ
  beta1 : ℚ
  beta2 : ℚ
deriving DecidableEq, Repr, Inhabited

/-- A cross-section table: the ordered rows of one orbital's DataFrame. -/
abbrev Table := List Sample

/-- One column of the binding-energy DataFrame: a sub-shell label paired with
its binding energy (the single row of `element[1]`). -/
structure BindingEntry where
  label : String
  energy : ℚ
deriving DecidableEq, Repr

/-- An element record, the triple `[name, bindingDataFrame, shellList]` from
`elements.py` (e.g. `neon = ["Neon", neonBinding, neonShell]`). -/
structure Element where
  name : String
  binding : List BindingEntry
  shells : List Table
deriving DecidableEq, Repr

/-- A peak record emitted by `synthSpectrum_interactive`: the dict
`{energy, shell, cross_section, beta, photon_energy}` appended to
`filtered_data`. -/
structure Peak where
  energy : ℚ
  shell : String
  cross_section : ℚ
  beta : ℚ
  photon_energy : ℚ
deriving DecidableEq, Repr

/-- Absolute value on ℚ, written out so that concrete instances reduce; it
agrees with `|·|` (see `qabs_eq_abs`). -/
def qabs (x : ℚ) : ℚ := if x < 0 then -x else x

/-- Binary minimum on ℚ, written out so that concrete instances reduce; it
agrees with `min` (see `qmin_eq_min`). -/
def qmin (a b : ℚ) : ℚ := if a ≤ b then a else b

/-- Per-row scaling used by `scale_cross_section`: `cs0,cs1,cs2` multiplied by
`factor`, all other columns copied (the `df.copy()` followed by the three
column assignments). -/
def scaleSample (factor : ℚ) (s : Sample) : Sample :=
  { s with cs0 := s.cs0 * factor, cs1 := s.cs1 * factor, cs2 := s.cs2 * factor }

/-- Embedding of `scale_cross_section(df, factor)` from `elements.py` (the
copy in `generate_elements_data.py` is textually identical): returns a new
table with the three cross-section columns scaled and everything else kept. -/
def scale_cross_section (df : Table) (factor : ℚ) : Table :=
  df.map (scaleSample factor)

/-- The series `(orbital["Photon Energy"] - e).abs()`: absolute differences of
each row's photon energy from the query energy, in row order. -/
def diffList (orbital : Table) (e : ℚ) : List ℚ :=
  orbital.map (fun s => qabs (s.photon_energy - e))

/-- The minimum of the absolute-difference series (0 for an empty table, where
the source never asks for it). -/
def minDiff (orbital : Table) (e : ℚ) : ℚ :=
  match orbital with
  | [] => 0
  | x :: xs => (xs.map (fun s => qabs (s.photon_energy - e))).foldl qmin
      (qabs (x.photon_energy - e))

/-- Embedding of `.idxmin()` on the absolute-difference series: the position
of the first occurrence of the minimum (pandas `idxmin` returns the first
occurrence of the minimal value; row labels coincide with positions here). -/
def nearestIdx (orbital : Table) (e : ℚ) : ℕ :=
  (diffList orbital e).findIdx (fun y => decide (y = minDiff orbital e))

/-- Embedding of `orbital.loc[nearestIdx]`, guarded by the
`if len(orbital) > 0` check of `synthSpectrum_interactive`: `none` for an
empty table, otherwise the row at the first-minimum index. -/
def nearestRow (orbital : Table) (e : ℚ) : Option Sample :=
  match orbital with
  | [] => none
  | x :: xs => some ((x :: xs).getD (nearestIdx (x :: xs) e) x)

/-- The nearest row of a non-empty table, with a default for the empty case
(used only under a non-emptiness hypothesis). -/
def nearestRowD (orbital : Table) (e : ℚ) : Sample :=
  (nearestRow orbital e).getD default

/-- The `(height, beta)` pair appended to `cs`/`betas` in one `(e, orbital)`
iteration of the inner loop: `(nearestRow["cs0"], nearestRow["beta0"])`, or
nothing when the orbital is empty. -/
def nearestPair (p : ℚ × Table) : Option (ℚ × ℚ) :=
  (nearestRow p.2 p.1).map (fun r => (r.cs0, r.beta0))

/-- The masked label/kinetic-energy pairs for one photon energy: the source's
`pos = eV - element[1].iloc[0,:].values - ret`, `mask = pos > 0`,
`eKin = pos[mask]`, `shell = element[1].columns[mask]`, kept as aligned
pairs. -/
def activePairs (element : Element) (eV ret : ℚ) : List (String × ℚ) :=
  (element.binding.map (fun b => (b.label, eV - b.energy - ret))).filter
    (fun p => decide (0 < p.2))

/-- The `cs`/`betas` lists built by the inner loop, kept as aligned pairs: the
source zips the MASKED kinetic energies against the FULL shell list
(`for e, orbital in zip(eKin, element[2])`) and appends only when the orbital
is non-empty. -/
def csBetaList (element : Element) (act : List (String × ℚ)) : List (ℚ × ℚ) :=
  ((act.map Prod.snd).zip element.shells).filterMap nearestPair

/-- One iteration of the `for eV in setPhoton` loop of
`synthSpectrum_interactive`: zips `eKin`/`shell` against `cs`/`betas`
(truncating to the shorter, as Python `zip` does) and keeps the entries with
`emax > x_val > emin`, emitting one peak dict per kept entry. -/
def synthOne (element : Element) (eV emax emin ret : ℚ) : List Peak :=
  (((activePairs element eV ret).zip
      (csBetaList element (activePairs element eV ret))).filter
    (fun q => decide (emin < q.1.2) && decide (q.1.2 < emax))).map
    (fun q => { energy := q.1.2, shell := q.1.1, cross_section := q.2.1,
                beta := q.2.2, photon_energy := eV })

/-- Embedding of `synthSpectrum_interactive(element, setPhoton, emax, emin,
ret)` from `interactive_spectrum.py`: the concatenation of the per-photon
groups, in caller-supplied order. -/
def synthSpectrum_interactive (element : Element) (setPhoton : List ℚ)
    (emax emin ret : ℚ) : List Peak :=
  (setPhoton.map (fun eV => synthOne element eV emax emin ret)).flatten

/-- The binding-energy table of Neon from `elements.py` (`neonBinding`), in
column order; `build_element_data` in `generate_elements_data.py` hard-codes
the same labels and values. -/
def neonBinding : List BindingEntry :=
  [⟨"1s", 870.2⟩, ⟨"2s", 48.5⟩, ⟨"2p1/2", 21.7⟩, ⟨"2p3/2", 21.6⟩]

/-- The Neon element record of `elements.py`, as a function of the three
loaded tables (the files `ne1s.txt`, `ne2s.txt`, `ne2p.txt` live outside the
sources, so the tables are parameters):
`neonShell = [ne1s, ne2s, ne2p_1half, ne2p_3half]` with the degeneracy split
1/3 and 2/3.  `build_element_data` builds `neon_shells` the same way. -/
def neon (ne1s ne2s ne2p : Table) : Element :=
  ⟨"Neon", neonBinding,
    [ne1s, ne2s, scale_cross_section ne2p (1/3), scale_cross_section ne2p (2/3)]⟩

/-- The binding-energy table of Argon, identical in `elements.py`
(`argonBinding`) and `generate_elements_data.py` (`argon_binding`). -/
def argonBinding : List BindingEntry :=
  [⟨"L1 2s", 326.3⟩, ⟨"L2 2p1/2", 250.6⟩, ⟨"L3 2p3/2", 248.4⟩,
   ⟨"M1 3s", 29.3⟩, ⟨"M2 3p1/2", 15.9⟩, ⟨"M3 3p3/2", 15.7⟩]

/-- The Argon element record, identical in both files:
`argonShell = [ar2s, ar2p_1half, ar2p_3half, ar3s, ar3p_1half, ar3p_3half]`. -/
def argon (ar2s ar2p ar3s ar3p : Table) : Element :=
  ⟨"Argon", argonBinding,
    [ar2s, scale_cross_section ar2p (1/3), scale_cross_section ar2p (2/3),
     ar3s, scale_cross_section ar3p (1/3), scale_cross_section ar3p (2/3)]⟩

/-- The binding-energy table of Krypton, identical in `elements.py`
(`kryptonBinding`) and `generate_elements_data.py` (`krypton_binding`). -/
def kryptonBinding : List BindingEntry :=
  [⟨"3s", 292.8⟩, ⟨"3p1/2", 222.2⟩, ⟨"3p3/2", 214.4⟩, ⟨"3d3/2", 95.0⟩,
   ⟨"3d5/2", 93.8⟩, ⟨"4s", 27.5⟩, ⟨"4p1/2", 14.1⟩, ⟨"4p3/2", 14.1⟩]

/-- The Krypton element record, identical in both files: `kryptonShell =
[kr3s, kr3p_1half, kr3p_3half, kr3d_3half, kr3d_5half, kr4s, kr4p_1half,
kr4p_3half]` with p splits 1/3, 2/3 and d splits 2/5, 3/5. -/
def krypton (kr3s kr3p kr3d kr4s kr4p : Table) : Element :=
  ⟨"Krypton", kryptonBinding,
    [kr3s, scale_cross_section kr3p (1/3), scale_cross_section kr3p (2/3),
     scale_cross_section kr3d (2/5), scale_cross_section kr3d (3/5),
     kr4s, scale_cross_section kr4p (1/3), scale_cross_section kr4p (2/3)]⟩

/-- The binding-energy table of Xenon from `build_element_data` in
`generate_elements_data.py` (`xenon_binding`), in key order. -/
def xenonBinding : List BindingEntry :=
  [⟨"M1 3s", 1148.7⟩, ⟨"M2 3p1/2", 1002.1⟩, ⟨"M3 3p3/2", 940.6⟩,
   ⟨"M4 3d3/2", 689⟩, ⟨"M5 3d5/2", 676.4⟩,
   ⟨"N1 4s", 213.2⟩, ⟨"N2 4p1/2", 146.7⟩, ⟨"N3 4p3/2", 145.5⟩,
   ⟨"N4 4d3/2", 69.5⟩, ⟨"N5 4d5/2", 67.5⟩,
   ⟨"O1 5s", 23.3⟩, ⟨"O2 5p1/2", 13.4⟩, ⟨"O3 5p3/2", 12.1⟩]

/-- The Xenon element record of `build_element_data` in
`generate_elements_data.py`: `xenon_shells` lists the 13 tables obtained from
the 8 source orbitals by splitting every p orbital 1/3, 2/3 and every d
orbital 2/5, 3/5 (`df_to_shell_data` converts the tables one-to-one). -/
def xenon (xe3s xe3p xe3d xe4s xe4p xe4d xe5s xe5p : Table) : Element :=
  ⟨"Xenon", xenonBinding,
    [xe3s, scale_cross_section xe3p (1/3), scale_cross_section xe3p (2/3),
     scale_cross_section xe3d (2/5), scale_cross_section xe3d (3/5),
     xe4s, scale_cross_section xe4p (1/3), scale_cross_section xe4p (2/3),
     scale_cross_section xe4d (2/5), scale_cross_section xe4d (3/5),
     xe5s, scale_cross_section xe5p (1/3), scale_cross_section xe5p (2/3)]⟩

/-- The deterministic placeholder table returned by `safe_read_csv` when a
reference file is missing: four samples at photon energies 100/200/500/1000. -/
def dummyTable : Table :=
  [⟨100, 1, 0, 0, 1.5, 0, 0⟩, ⟨200, 0.8, 0, 0, 1.4, 0, 0⟩,
   ⟨500, 0.5, 0, 0, 1.3, 0, 0⟩, ⟨1000, 0.3, 0, 0, 1.2, 0, 0⟩]

/-- An element holding just the 2p3/2 sub-shell of the boundary scenario of
claims C5 and C8, with the placeholder table as its cross-section data. -/
def singleSubshell : Element := ⟨"W", [⟨"2p3/2", 21.6⟩], [dummyTable]⟩

/-! ### Helper lemmas about the embedded primitives -/

theorem qabs_eq_abs (x : ℚ) : qabs x = |x| := by
  rw [qabs]
  split
  · exact (abs_of_neg (by assumption)).symm
  · exact (abs_of_nonneg (not_lt.mp (by assumption))).symm

theorem qmin_eq_min (a b : ℚ) : qmin a b = min a b := by
  rw [qmin]
  split
  · exact (min_eq_left (by assumption)).symm
  · exact (min_eq_right (le_of_lt (not_le.mp (by assumption)))).symm

theorem qmin_le_left (a b : ℚ) : qmin a b ≤ a := by
  rw [qmin_eq_min]; exact min_le_left a b

theorem qmin_le_right (a b : ℚ) : qmin a b ≤ b := by
  rw [qmin_eq_min]; exact min_le_right a b

theorem foldl_qmin_le_init (l : List ℚ) (a : ℚ) : l.foldl qmin a ≤ a := by
  induction l generalizing a with
  | nil => exact le_refl a
  | cons x xs ih => exact le_trans (ih (qmin a x)) (qmin_le_left a x)

theorem foldl_qmin_le_mem (l : List ℚ) (a : ℚ) {y : ℚ} (hy : y ∈ l) :
    l.foldl qmin a ≤ y := by
  induction l generalizing a with
  | nil => cases hy
  | cons x xs ih =>
    rcases List.mem_cons.mp hy with h | h
    · subst h
      exact le_trans (foldl_qmin_le_init xs (qmin a y)) (qmin_le_right a y)
    · exact ih (qmin a x) h

theorem foldl_qmin_choice (l : List ℚ) (a : ℚ) :
    l.foldl qmin a = a ∨ l.foldl qmin a ∈ l := by
  induction l generalizing a with
  | nil => exact Or.inl rfl
  | cons x xs ih =>
    rcases ih (qmin a x) with h | h
    · rw [List.foldl_cons, h, qmin]
      split
      · exact Or.inl rfl
      · exact Or.inr (List.mem_cons_self x xs)
    · exact Or.inr (List.mem_cons_of_mem x h)

theorem length_diffList (orbital : Table) (e : ℚ) :
    (diffList orbital e).length = orbital.length := by
  simp [diffList]

theorem diffList_get (orbital : Table) (e : ℚ) (k : ℕ) (hk : k < orbital.length) :
    (diffList orbital e).get ⟨k, by rw [length_diffList]; exact hk⟩
      = qabs ((orbital.get ⟨k, hk⟩).photon_energy - e) := by
  simp [diffList]

theorem minDiff_le (orbital : Table) (e : ℚ) {y : ℚ} (hy : y ∈ diffList orbital e) :
    minDiff orbital e ≤ y := by
  cases orbital with
  | nil => cases hy
  | cons x xs =>
    rcases List.mem_cons.mp hy with h | h
    · subst h
      exact foldl_qmin_le_init _ _
    · exact foldl_qmin_le_mem _ _ h

theorem minDiff_mem (orbital : Table) (e : ℚ) (h : orbital ≠ []) :
    minDiff orbital e ∈ diffList orbital e := by
  cases orbital with
  | nil => exact absurd rfl h
  | cons x xs =>
    rcases foldl_qmin_choice (xs.map (fun s => qabs (s.photon_energy - e)))
        (qabs (x.photon_energy - e)) with hc | hc
    · rw [diffList, List.map_cons]
      exact hc ▸ List.mem_cons_self _ _
    · rw [diffList, List.map_cons]
      exact List.mem_cons_of_mem _ hc

theorem nearestIdx_lt (orbital : Table) (e : ℚ) (h : orbital ≠ []) :
    nearestIdx orbital e < orbital.length := by
  have hex : ∃ y ∈ diffList orbital e,
      (fun y => decide (y = minDiff orbital e)) y = true :=
    ⟨minDiff orbital e, minDiff_mem orbital e h, by simp⟩
  have := List.findIdx_lt_length_of_exists hex
  rwa [length_diffList] at this

theorem nearestIdx_diff (orbital : Table) (e : ℚ) (h : orbital ≠ []) :
    (diffList orbital e).get
        ⟨nearestIdx orbital e, by rw [length_diffList]; exact nearestIdx_lt orbital e h⟩
      = minDiff orbital e := by
  have hlt : nearestIdx orbital e < (diffList orbital e).length := by
    rw [length_diffList]; exact nearestIdx_lt orbital e h
  have := @List.findIdx_getElem ℚ (fun y => decide (y = minDiff orbital e))
    (diffList orbital e) hlt
  simpa [nearestIdx] using this

theorem nearestIdx_first (orbital : Table) (e : ℚ) (k : ℕ)
    (hk : k < nearestIdx orbital e) :
    (diffList orbital e).get
        ⟨k, Nat.lt_of_lt_of_le hk (List.findIdx_le_length _)⟩
      ≠ minDiff orbital e := by
  have := @List.not_of_lt_findIdx ℚ (fun y => decide (y = minDiff orbital e))
    (diffList orbital e) k hk
  simpa using this

theorem nearestRow_of_ne_nil (orbital : Table) (e : ℚ) (h : orbital ≠ []) :
    nearestRow orbital e
      = some (orbital.get ⟨nearestIdx orbital e, nearestIdx_lt orbital e h⟩) := by
  cases orbital with
  | nil => exact absurd rfl h
  | cons x xs =>
    have hlt := nearestIdx_lt (x :: xs) e h
    simp only [nearestRow, Option.some.injEq]
    rw [List.getD_eq_getElem?_getD, List.getElem?_eq_getElem hlt]
    rfl

theorem nearestRowD_of_ne_nil (orbital : Table) (e : ℚ) (h : orbital ≠ []) :
    nearestRow orbital e = some (nearestRowD orbital e) := by
  rw [nearestRowD, nearestRow_of_ne_nil orbital e h]
  rfl

theorem nearestRow_mem {orbital : Table} {e : ℚ} {r : Sample}
    (h : nearestRow orbital e = some r) : r ∈ orbital := by
  cases orbital with
  | nil => cases h
  | cons x xs =>
    have hne : x :: xs ≠ ([] : Table) := by simp
    rw [nearestRow_of_ne_nil (x :: xs) e hne] at h
    have := Option.some.inj h
    rw [← this]
    exact List.get_mem _ _ _

theorem filterMap_nearestPair (l : List (ℚ × Table)) (h : ∀ p ∈ l, p.2 ≠ []) :
    l.filterMap nearestPair
      = l.map (fun p => ((nearestRowD p.2 p.1).cs0, (nearestRowD p.2 p.1).beta0)) := by
  induction l with
  | nil => rfl
  | cons p l ih =>
    have hp : p.2 ≠ [] := h p (List.mem_cons_self p l)
    rw [List.filterMap_cons, List.map_cons]
    have : nearestPair p = some ((nearestRowD p.2 p.1).cs0, (nearestRowD p.2 p.1).beta0) := by
      rw [nearestPair, nearestRowD_of_ne_nil p.2 p.1 hp]
      rfl
    rw [this]
    exact congrArg _ (ih (fun q hq => h q (List.mem_cons_of_mem p hq)))

theorem activePairs_length_le (element : Element) (eV ret : ℚ) :
    (activePairs element eV ret).length ≤ element.binding.length := by
  have := List.length_filter_le (fun p : String × ℚ => decide (0 < p.2))
    (element.binding.map (fun b => (b.label, eV - b.energy - ret)))
  simpa [activePairs] using this

theorem synthSpectrum_interactive_single (element : Element) (eV emax emin ret : ℚ) :
    synthSpectrum_interactive element [eV] emax emin ret
      = synthOne element eV emax emin ret := by
  simp [synthSpectrum_interactive]

/-! ### Claim C2: binding-table and shell-list lengths agree -/

/-- Claim C2: for every element record constructed by the repository (Neon,
Argon, Krypton in `elements.py`; the same three plus Xenon in
`generate_elements_data.py`), the number of binding-table entries equals the
number of cross-section tables in the shell list, whatever the loaded source
tables are. -/
theorem element_record_lengths
    (ne1s ne2s ne2p ar2s ar2p ar3s ar3p kr3s kr3p kr3d kr4s kr4p
     xe3s xe3p xe3d xe4s xe4p xe4d xe5s xe5p : Table) :
    (neon ne1s ne2s ne2p).binding.length = (neon ne1s ne2s ne2p).shells.length ∧
    (argon ar2s ar2p ar3s ar3p).binding.length
      = (argon ar2s ar2p ar3s ar3p).shells.length ∧
    (krypton kr3s kr3p kr3d kr4s kr4p).binding.length
      = (krypton kr3s kr3p kr3d kr4s kr4p).shells.length ∧
    (xenon xe3s xe3p xe3d xe4s xe4p xe4d xe5s xe5p).binding.length
      = (xenon xe3s xe3p xe3d xe4s xe4p xe4d xe5s xe5p).shells.length :=
  ⟨rfl, rfl, rfl, rfl⟩

/-! ### Claims C3 and C4: degeneracy splitting -/

theorem scale_getD (T : Table) (w : ℚ) (i : ℕ) (hi : i < T.length) (d : Sample) :
    (scale_cross_section T w).getD i d = scaleSample w (T.getD i d) := by
  induction T generalizing i with
  | nil => cases hi
  | cons x xs ih =>
    cases i with
    | zero => rfl
    | succ n =>
      rw [scale_cross_section, List.map_cons]
      rw [List.getD_cons_succ, List.getD_cons_succ]
      exact ih n (Nat.lt_of_succ_lt_succ hi)

/-- The conservation property of claim C3 at one sample index: the two
weight-split children's cross-sections add back to the parent's, within
tolerance 1e-9, for each of cs0, cs1, cs2. -/
def ConservedAt (T : Table) (w1 w2 : ℚ) (i : ℕ) : Prop :=
  |((scale_cross_section T w1).getD i default).cs0
      + ((scale_cross_section T w2).getD i default).cs0
      - (T.getD i default).cs0| ≤ 1 / 1000000000 ∧
  |((scale_cross_section T w1).getD i default).cs1
      + ((scale_cross_section T w2).getD i default).cs1
      - (T.getD i default).cs1| ≤ 1 / 1000000000 ∧
  |((scale_cross_section T w1).getD i default).cs2
      + ((scale_cross_section T w2).getD i default).cs2
      - (T.getD i default).cs2| ≤ 1 / 1000000000

/-- Claim C3: for every cross-section table `T` and complementary weights
`w1 + w2 = 1`, the `cs0` (and `cs1`, `cs2`) values of
`split_by_degeneracy(T, w1)` and `split_by_degeneracy(T, w2)` sum to those of
`T` at every sample index, within tolerance 1e-9 (the sums are exact over
ℚ). -/
theorem split_by_degeneracy_conservation (T : Table) (w1 w2 : ℚ)
    (hw : w1 + w2 = 1) (i : ℕ) (hi : i < T.length) :
    ConservedAt T w1 w2 i := by
  rw [ConservedAt, scale_getD T w1 i hi, scale_getD T w2 i hi]
  have key : ∀ a : ℚ, |a * w1 + a * w2 - a| ≤ 1 / 1000000000 := by
    intro a
    have : a * w1 + a * w2 - a = 0 := by rw [← mul_add, hw, mul_one, sub_self]
    rw [this, abs_zero]
    norm_num
  exact ⟨key _, key _, key _⟩

/-- Witness for C3: the conservation theorem applied to the placeholder table
with the 2p split weights 1/3 and 2/3 at index 0. -/
theorem split_by_degeneracy_conservation_witness :
    ((1 : ℚ)/3 + 2/3 = 1) ∧ 0 < dummyTable.length ∧
    ConservedAt dummyTable (1/3) (2/3) 0 :=
  ⟨by norm_num, by simp [dummyTable],
   split_by_degeneracy_conservation dummyTable (1/3) (2/3) (by norm_num) 0
     (by simp [dummyTable])⟩

/-- The field-wise description of claim C4 at one sample index: the split
scales `cs0,cs1,cs2` by the weight and copies `beta0,beta1,beta2` and
`photon_energy` unchanged. -/
def SplitFieldsAt (T : Table) (w : ℚ) (i : ℕ) : Prop :=
  ((scale_cross_section T w).getD i default).cs0 = (T.getD i default).cs0 * w ∧
  ((scale_cross_section T w).getD i default).cs1 = (T.getD i default).cs1 * w ∧
  ((scale_cross_section T w).getD i default).cs2 = (T.getD i default).cs2 * w ∧
  ((scale_cross_section T w).getD i default).beta0 = (T.getD i default).beta0 ∧
  ((scale_cross_section T w).getD i default).beta1 = (T.getD i default).beta1 ∧
  ((scale_cross_section T w).getD i default).beta2 = (T.getD i default).beta2 ∧
  ((scale_cross_section T w).getD i default).photon_energy
    = (T.getD i default).photon_energy

/-- Claim C4: for every table `T` and weight `w ∈ (0,1]`,
`split_by_degeneracy(T, w)` has the same length as `T` and, at every index,
multiplies `cs0,cs1,cs2` by `w` elementwise while copying `beta0,beta1,beta2`
and `photon_energy` unchanged; as a pure function of the embedding it leaves
the input `T` untouched. -/
theorem split_by_degeneracy_fields (T : Table) (w : ℚ)
    (hw0 : 0 < w) (hw1 : w ≤ 1) (i : ℕ) (hi : i < T.length) :
    (scale_cross_section T w).length = T.length ∧ SplitFieldsAt T w i := by
  constructor
  · rw [scale_cross_section, List.length_map]
  · rw [SplitFieldsAt, scale_getD T w i hi]
    exact ⟨rfl, rfl, rfl, rfl, rfl, rfl, rfl⟩

/-- Witness for C4: the field-wise theorem applied to the placeholder table
with weight 1/3 at index 0. -/
theorem split_by_degeneracy_fields_witness :
    (0 < (1 : ℚ)/3) ∧ ((1 : ℚ)/3 ≤ 1) ∧ 0 < dummyTable.length ∧
    ((scale_cross_section dummyTable (1/3)).length = dummyTable.length ∧
     SplitFieldsAt dummyTable (1/3) 0) :=
  ⟨by norm_num, by norm_num, by simp [dummyTable],
   split_by_degeneracy_fields dummyTable (1/3) (by norm_num) (by norm_num) 0
     (by simp [dummyTable])⟩

/-! ### Claim C6: nearest-match determinism -/

/-- The nearest-lookup specification of claim C6 for one table and query: the
returned row sits at an index that minimizes the absolute difference between
tabulated photon energy and query, and every strictly smaller index has a
strictly larger difference (first occurrence of the minimum). -/
def NearestSpec (orbital : Table) (e : ℚ) : Prop :=
  ∃ j, ∃ hj : j < orbital.length,
    nearestRow orbital e = some (orbital.get ⟨j, hj⟩) ∧
    (∀ k, ∀ hk : k < orbital.length,
      |(orbital.get ⟨j, hj⟩).photon_energy - e|
        ≤ |(orbital.get ⟨k, hk⟩).photon_energy - e|) ∧
    (∀ k, ∀ hk : k < orbital.length, k < j →
      |(orbital.get ⟨j, hj⟩).photon_energy - e|
        < |(orbital.get ⟨k, hk⟩).photon_energy - e|)

/-- Claim C6: for every non-empty cross-section table and every query energy,
the lookup selects the sample minimizing the absolute difference of tabulated
photon energy to the query, taking the lowest index on ties. -/
theorem nearestRow_first_min (orbital : Table) (e : ℚ) (h : orbital ≠ []) :
    NearestSpec orbital e := by
  have hj := nearestIdx_lt orbital e h
  refine ⟨nearestIdx orbital e, hj, nearestRow_of_ne_nil orbital e h, ?_, ?_⟩
  · intro k hk
    have hkd : k < (diffList orbital e).length := by
      rw [length_diffList]; exact hk
    have h2 : minDiff orbital e ≤ (diffList orbital e).get ⟨k, hkd⟩ :=
      minDiff_le orbital e (List.get_mem _ _ _)
    have h1 := nearestIdx_diff orbital e h
    rw [diffList_get orbital e _ hj] at h1
    rw [diffList_get orbital e k hk] at h2
    rw [← qabs_eq_abs, ← qabs_eq_abs, h1]
    exact h2
  · intro k hk hkj
    have hkd : k < (diffList orbital e).length := by
      rw [length_diffList]; exact hk
    have h2 : minDiff orbital e ≤ (diffList orbital e).get ⟨k, hkd⟩ :=
      minDiff_le orbital e (List.get_mem _ _ _)
    have h3 := nearestIdx_first orbital e k hkj
    have h1 := nearestIdx_diff orbital e h
    rw [diffList_get orbital e _ hj] at h1
    rw [diffList_get orbital e k hk] at h2
    rw [diffList_get orbital e k hk] at h3
    rw [← qabs_eq_abs, ← qabs_eq_abs, h1]
    exact lt_of_le_of_ne h2 (fun hEq => h3 hEq.symm)

/-- Witness for C6: the lookup theorem applied to the placeholder table
(photon energies 100/200/500/1000) with query 150; the equality conjunct
checks the claim's example directly: both 100 and 200 are 50 away, and the
tie-break returns the sample at 100 (lowest index). -/
theorem nearestRow_first_min_witness :
    dummyTable ≠ ([] : Table) ∧ NearestSpec dummyTable 150 ∧
    nearestRow dummyTable 150 = some ⟨100, 1, 0, 0, 1.5, 0, 0⟩ :=
  ⟨by simp [dummyTable],
   nearestRow_first_min dummyTable 150 (by simp [dummyTable]),
   by norm_num [nearestRow, nearestIdx, diffList, minDiff, qabs, qmin, dummyTable,
     List.findIdx_cons]⟩

/-! ### Claim C8: empty-input tolerance -/

/-- Claim C8: the synthesizer returns an empty sequence (rather than raising)
for an empty photon-energy list, for every element; likewise for an element
whose shell tables are all empty, for any photon energies; and more generally
whenever no shell is visible — no active sub-shell has its kinetic energy
strictly inside the window for any supplied photon energy — the output is the
empty sequence. -/
theorem synth_empty_tolerance (element : Element) (setPhoton : List ℚ)
    (emax emin ret : ℚ) :
    synthSpectrum_interactive element [] emax emin ret = [] ∧
    ((∀ t ∈ element.shells, t = []) →
      synthSpectrum_interactive element setPhoton emax emin ret = []) ∧
    ((∀ eV ∈ setPhoton, ∀ q ∈ activePairs element eV ret,
        ¬(emin < q.2 ∧ q.2 < emax)) →
      synthSpectrum_interactive element setPhoton emax emin ret = []) := by
  refine ⟨rfl, ?_, ?_⟩
  · intro h
    have hone : ∀ eV : ℚ, synthOne element eV emax emin ret = [] := by
      intro eV
      have hcb : csBetaList element (activePairs element eV ret) = [] := by
        rw [csBetaList, List.filterMap_eq_nil_iff]
        intro p hp
        obtain ⟨pe, pt⟩ := p
        have hpt : pt ∈ element.shells := (List.of_mem_zip hp).2
        rw [nearestPair, h pt hpt]
        rfl
      rw [synthOne, hcb]
      simp
    rw [synthSpectrum_interactive]
    simp [hone]
  · intro h
    rw [synthSpectrum_interactive, List.flatten_eq_nil_iff]
    intro l hl
    obtain ⟨eV, heV, hle⟩ := List.mem_map.mp hl
    rw [← hle, synthOne]
    have hf : List.filter
        (fun q => decide (emin < q.1.2) && decide (q.1.2 < emax))
        ((activePairs element eV ret).zip
          (csBetaList element (activePairs element eV ret))) = [] := by
      rw [List.filter_eq_nil_iff]
      intro q hq
      obtain ⟨qa, qb⟩ := q
      have hqa : qa ∈ activePairs element eV ret := (List.of_mem_zip hq).1
      have hw := h eV heV qa hqa
      simp only [Bool.and_eq_true, decide_eq_true_eq]
      exact hw
    rw [hf]
    rfl

/-- An element whose single shell table is empty, used to instantiate the
empty-tolerance theorem. -/
def allEmptyElement : Element := ⟨"Empty", [⟨"A", 1⟩], [[]]⟩

/-- Witness for C8: the empty-tolerance theorem applied, for the empty
photon list and the all-empty-shells part, to a concrete element with one
empty shell table and photon list `[5]`, and, for the no-visible-shell part,
to `singleSubshell` at photon energy 1486.6 with window (0, 800), where the
only active kinetic energy 1465 lies outside the window. -/
theorem synth_empty_tolerance_witness :
    (synthSpectrum_interactive allEmptyElement [] 1000 0 0 = []) ∧
    ((∀ t ∈ allEmptyElement.shells, t = ([] : Table)) ∧
      synthSpectrum_interactive allEmptyElement [5] 1000 0 0 = []) ∧
    ((∀ eV ∈ ([1486.6] : List ℚ), ∀ q ∈ activePairs singleSubshell eV 0,
        ¬((0 : ℚ) < q.2 ∧ q.2 < 800)) ∧
      synthSpectrum_interactive singleSubshell [1486.6] 800 0 0 = []) := by
  have hvis : ∀ eV ∈ ([1486.6] : List ℚ), ∀ q ∈ activePairs singleSubshell eV 0,
      ¬((0 : ℚ) < q.2 ∧ q.2 < 800) := by
    norm_num [activePairs, singleSubshell, List.filter_cons]
  refine ⟨(synth_empty_tolerance allEmptyElement [5] 1000 0 0).1,
    ⟨by simp [allEmptyElement],
     (synth_empty_tolerance allEmptyElement [5] 1000 0 0).2.1
       (by simp [allEmptyElement])⟩,
    ⟨hvis, (synth_empty_tolerance singleSubshell [1486.6] 800 0 0).2.2 hvis⟩⟩

/-! ### Claim C1: positional alignment of the cross-section lookup -/

/-- A two-sub-shell element on which the first index is inactive at photon
energy 50: binding entries A (energy 100, inactive) and B (energy 10, kinetic
energy 40), with distinguishable one-row shell tables at positions 0 and 1. -/
def bugElement : Element :=
  ⟨"Bug", [⟨"A", 100⟩, ⟨"B", 10⟩],
   [[⟨50, 7, 0, 0, 1, 0, 0⟩], [⟨50, 9, 0, 0, 2, 0, 0⟩]]⟩

/-- Claim C1 fails on the code: at photon energy 50 only index 1 (label B) is
active, and the claim requires its peak to carry `shells[1]`'s data
(cs0 = 9, beta0 = 2); the source instead zips the masked kinetic energies
against the unmasked shell list (`zip(eKin, element[2])`), so the emitted peak
for B carries `shells[0]`'s data (cs0 = 7, beta0 = 1), and no emitted peak
carries any value from `shells[1]`. -/
theorem misaligned_lookup_eval :
    synthSpectrum_interactive bugElement [50] 1000 0 0
      = [{ energy := 40, shell := "B", cross_section := 7, beta := 1,
           photon_energy := 50 }] ∧
    (∀ s ∈ bugElement.shells.getD 1 [], s.cs0 = 9 ∧ s.beta0 = 2) ∧
    (∀ p ∈ synthSpectrum_interactive bugElement [50] 1000 0 0,
      ∀ s ∈ bugElement.shells.getD 1 [], p.cross_section ≠ s.cs0 ∧ p.beta ≠ s.beta0) := by
  have heval : synthSpectrum_interactive bugElement [50] 1000 0 0
      = [{ energy := 40, shell := "B", cross_section := 7, beta := 1,
           photon_energy := 50 }] := by
    norm_num [synthSpectrum_interactive, synthOne, activePairs, csBetaList, nearestPair,
      nearestRow, nearestIdx, diffList, minDiff, qabs, qmin, bugElement,
      List.findIdx_cons, List.filter_cons, List.filterMap_cons]
  refine ⟨heval, ?_, ?_⟩
  · intro s hs
    simp only [bugElement, List.getD_cons_succ, List.getD_cons_zero,
      List.mem_singleton] at hs
    rw [hs]
    exact ⟨rfl, rfl⟩
  · intro p hp s hs
    rw [heval] at hp
    simp only [List.mem_singleton] at hp
    simp only [bugElement, List.getD_cons_succ, List.getD_cons_zero,
      List.mem_singleton] at hs
    rw [hp, hs]
    norm_num

/-! ### Claim C7: effect of an empty shell table -/

/-- A three-sub-shell element whose middle shell table is empty; at photon
energy 1000 all three sub-shells are active with kinetic energies 990, 980,
970. -/
def emptyMidElement : Element :=
  ⟨"Mid", [⟨"A", 10⟩, ⟨"B", 20⟩, ⟨"C", 30⟩],
   [[⟨990, 5, 0, 0, 1, 0, 0⟩], [], [⟨970, 11, 0, 0, 3, 0, 0⟩]]⟩

/-- The same element with the middle sub-shell removed altogether, for
comparison with the behaviour the claim prescribes. -/
def emptyMidDropped : Element :=
  ⟨"Mid2", [⟨"A", 10⟩, ⟨"C", 30⟩],
   [[⟨990, 5, 0, 0, 1, 0, 0⟩], [⟨970, 11, 0, 0, 3, 0, 0⟩]]⟩

/-- Claim C7 fails on the code: with `shells[1]` empty, the source still emits
a peak for sub-shell B (kinetic energy 980) but fills it with `shells[2]`'s
data, and drops sub-shell C entirely; removing index 1 from the element
instead yields peaks for A and C.  The skip of an empty orbital shifts every
later `(cs, beta)` pair and truncates the final zip, so the empty table does
not affect only its own sub-shell. -/
theorem empty_shell_shift_eval :
    synthSpectrum_interactive emptyMidElement [1000] 2000 0 0
      = [{ energy := 990, shell := "A", cross_section := 5, beta := 1,
           photon_energy := 1000 },
         { energy := 980, shell := "B", cross_section := 11, beta := 3,
           photon_energy := 1000 }] ∧
    synthSpectrum_interactive emptyMidDropped [1000] 2000 0 0
      = [{ energy := 990, shell := "A", cross_section := 5, beta := 1,
           photon_energy := 1000 },
         { energy := 970, shell := "C", cross_section := 11, beta := 3,
           photon_energy := 1000 }] := by
  constructor
  · norm_num [synthSpectrum_interactive, synthOne, activePairs, csBetaList, nearestPair,
      nearestRow, nearestIdx, diffList, minDiff, qabs, qmin, emptyMidElement,
      List.findIdx_cons, List.filter_cons, List.filterMap_cons]
  · norm_num [synthSpectrum_interactive, synthOne, activePairs, csBetaList, nearestPair,
      nearestRow, nearestIdx, diffList, minDiff, qabs, qmin, emptyMidDropped,
      List.findIdx_cons, List.filter_cons, List.filterMap_cons]

/-! ### Claim C5: strict visibility window -/

theorem csBetaList_length (element : Element) (eV ret : ℚ)
    (hlen : element.binding.length = element.shells.length)
    (hne : ∀ t ∈ element.shells, t ≠ []) :
    (csBetaList element (activePairs element eV ret)).length
      = (activePairs element eV ret).length := by
  rw [csBetaList, filterMap_nearestPair]
  · rw [List.length_map, List.length_zip, List.length_map]
    exact Nat.min_eq_left
      (le_trans (activePairs_length_le element eV ret) (le_of_eq hlen))
  · intro p hp
    obtain ⟨pe, pt⟩ := p
    exact hne pt (List.of_mem_zip hp).2

/-- An element satisfying the positional invariant whose first shell table is
empty: at photon energy 100 both sub-shells are active (kinetic energies 95
and 90). -/
def missingFirstElement : Element :=
  ⟨"Cex", [⟨"A", 5⟩, ⟨"B", 10⟩], [[], [⟨95, 4, 0, 0, 2, 0, 0⟩]]⟩

/-- Claim C5 as stated is false on the code: quantified over every element, the
if-and-only-if fails.  Here sub-shell B is active with kinetic energy 90
strictly inside the window (0, 1000), yet no peak for B is emitted, because the
empty `shells[0]` makes the `cs`/`betas` lists shorter than the active list and
the final zip truncates. -/
theorem strict_window_cex :
    activePairs missingFirstElement 100 0 = [("A", 95), ("B", 90)] ∧
    ((0 : ℚ) < 90 ∧ (90 : ℚ) < 1000) ∧
    (∀ p ∈ synthSpectrum_interactive missingFirstElement [100] 1000 0 0,
      ¬(p.energy = 90 ∧ p.shell = "B")) := by
  have heval : synthSpectrum_interactive missingFirstElement [100] 1000 0 0
      = [{ energy := 95, shell := "A", cross_section := 4, beta := 2,
           photon_energy := 100 }] := by
    norm_num [synthSpectrum_interactive, synthOne, activePairs, csBetaList, nearestPair,
      nearestRow, nearestIdx, diffList, minDiff, qabs, qmin, missingFirstElement,
      List.findIdx_cons, List.filter_cons, List.filterMap_cons]
  refine ⟨by norm_num [activePairs, missingFirstElement, List.filter_cons],
    by norm_num, ?_⟩
  intro p hp
  rw [heval, List.mem_singleton] at hp
  rw [hp]
  norm_num

/-- Claim C5 (amended): for every element satisfying the positional invariant
whose shell tables are all non-empty, a peak for the k-th active sub-shell
(its kinetic energy and label) is included in the synthesizer output exactly
when `e_min < kinetic_energy < e_max`, with strict inequalities on both
sides; boundary values are excluded. -/
theorem strict_window_iff (element : Element) (eV emax emin ret : ℚ)
    (hlen : element.binding.length = element.shells.length)
    (hne : ∀ t ∈ element.shells, t ≠ [])
    (k : ℕ) (hk : k < (activePairs element eV ret).length) :
    (∃ p ∈ synthSpectrum_interactive element [eV] emax emin ret,
        p.energy = ((activePairs element eV ret).get ⟨k, hk⟩).2 ∧
        p.shell = ((activePairs element eV ret).get ⟨k, hk⟩).1)
      ↔ (emin < ((activePairs element eV ret).get ⟨k, hk⟩).2 ∧
          ((activePairs element eV ret).get ⟨k, hk⟩).2 < emax) := by
  rw [synthSpectrum_interactive_single]
  constructor
  · rintro ⟨p, hp, he, hs⟩
    rw [synthOne] at hp
    obtain ⟨q, hq, hpq⟩ := List.mem_map.mp hp
    have hcond := (List.mem_filter.mp hq).2
    simp only [Bool.and_eq_true, decide_eq_true_eq] at hcond
    have hpe : p.energy = q.1.2 := by rw [← hpq]
    rw [hpe] at he
    rw [← he]
    exact hcond
  · rintro ⟨h1, h2⟩
    have hcbl := csBetaList_length element eV ret hlen hne
    have hcbk : k < (csBetaList element (activePairs element eV ret)).length := by
      rw [hcbl]; exact hk
    have hkz : k < ((activePairs element eV ret).zip
        (csBetaList element (activePairs element eV ret))).length := by
      rw [List.length_zip, hcbl, Nat.min_self]; exact hk
    have hzk : ((activePairs element eV ret).zip
          (csBetaList element (activePairs element eV ret))).get ⟨k, hkz⟩
        = ((activePairs element eV ret).get ⟨k, hk⟩,
           (csBetaList element (activePairs element eV ret)).get ⟨k, hcbk⟩) := by
      rw [List.get_eq_getElem, List.get_eq_getElem, List.get_eq_getElem]
      exact List.getElem_zip
    rw [synthOne]
    refine ⟨(fun q => Peak.mk q.1.2 q.1.1 q.2.1 q.2.2 eV)
        (((activePairs element eV ret).zip
          (csBetaList element (activePairs element eV ret))).get ⟨k, hkz⟩),
      List.mem_map_of_mem _ ?_, ?_, ?_⟩
    · apply List.mem_filter.mpr
      refine ⟨List.get_mem _ _ _, ?_⟩
      simp only [Bool.and_eq_true, decide_eq_true_eq, hzk]
      exact ⟨h1, h2⟩
    · rw [hzk]
    · rw [hzk]

/-- Witness for the amended C5: at photon energy 1486.6 with work function 0
the sub-shell with binding energy 21.6 has kinetic energy 1465; by the
window theorem its peak is present for the window (0, 1500), and a direct
evaluation shows it is absent for the window (0, 800). -/
theorem strict_window_iff_witness :
    (singleSubshell.binding.length = singleSubshell.shells.length) ∧
    (∀ t ∈ singleSubshell.shells, t ≠ ([] : Table)) ∧
    (0 < (activePairs singleSubshell 1486.6 0).length) ∧
    (∃ p ∈ synthSpectrum_interactive singleSubshell [1486.6] 1500 0 0,
        p.energy = ((activePairs singleSubshell 1486.6 0).get
            ⟨0, by norm_num [activePairs, singleSubshell, List.filter_cons]⟩).2 ∧
        p.shell = ((activePairs singleSubshell 1486.6 0).get
            ⟨0, by norm_num [activePairs, singleSubshell, List.filter_cons]⟩).1) ∧
    (synthSpectrum_interactive singleSubshell [1486.6] 800 0 0 = []) := by
  refine ⟨rfl, by simp [singleSubshell, dummyTable], ?_, ?_, ?_⟩
  · norm_num [activePairs, singleSubshell, List.filter_cons]
  · apply (strict_window_iff singleSubshell 1486.6 1500 0 0 rfl
      (by simp [singleSubshell, dummyTable]) 0
      (by norm_num [activePairs, singleSubshell, List.filter_cons])).mpr
    norm_num [activePairs, singleSubshell, List.filter_cons]
  · norm_num [synthSpectrum_interactive, synthOne, activePairs, csBetaList, nearestPair,
      nearestRow, nearestIdx, diffList, minDiff, qabs, qmin, singleSubshell, dummyTable,
      List.findIdx_cons, List.filter_cons, List.filterMap_cons]

/-! ### Claim C9: Neon end-to-end scenario -/

/-- Claim C9: for the Neon record (binding table 1s:870.2, 2s:48.5,
2p1/2:21.7, 2p3/2:21.6) with any non-empty source tables, photon energy
1486.6 eV, work function 0 and window (0, 800), the output is exactly one
peak, labelled "1s", at kinetic energy 616.4 eV (the 2s, 2p1/2, 2p3/2
kinetic energies 1438.1, 1464.9, 1465 all exceed 800 and are excluded). -/
theorem neon_scenario (ne1s ne2s ne2p : Table)
    (h1 : ne1s ≠ []) (h2 : ne2s ≠ []) (h3 : ne2p ≠ []) :
    ∃ p : Peak,
      synthSpectrum_interactive (neon ne1s ne2s ne2p) [1486.6] 800 0 0 = [p] ∧
      p.shell = "1s" ∧ p.energy = 616.4 ∧ p.photon_energy = 1486.6 := by
  have hs1 : scale_cross_section ne2p (1/3) ≠ [] := by
    rw [scale_cross_section, ne_eq, List.map_eq_nil_iff]
    exact h3
  have hs2 : scale_cross_section ne2p (2/3) ≠ [] := by
    rw [scale_cross_section, ne_eq, List.map_eq_nil_iff]
    exact h3
  have hact : activePairs (neon ne1s ne2s ne2p) 1486.6 0
      = [("1s", 616.4), ("2s", 1438.1), ("2p1/2", 1464.9), ("2p3/2", 1465)] := by
    norm_num [activePairs, neon, neonBinding, List.filter_cons]
  have e1 : nearestPair (616.4, ne1s)
      = some ((nearestRowD ne1s 616.4).cs0, (nearestRowD ne1s 616.4).beta0) := by
    rw [nearestPair, nearestRowD_of_ne_nil _ _ h1]
    rfl
  have e2 : nearestPair (1438.1, ne2s)
      = some ((nearestRowD ne2s 1438.1).cs0, (nearestRowD ne2s 1438.1).beta0) := by
    rw [nearestPair, nearestRowD_of_ne_nil _ _ h2]
    rfl
  have e3 : nearestPair (1464.9, scale_cross_section ne2p (1/3))
      = some ((nearestRowD (scale_cross_section ne2p (1/3)) 1464.9).cs0,
              (nearestRowD (scale_cross_section ne2p (1/3)) 1464.9).beta0) := by
    rw [nearestPair, nearestRowD_of_ne_nil _ _ hs1]
    rfl
  have e4 : nearestPair (1465, scale_cross_section ne2p (2/3))
      = some ((nearestRowD (scale_cross_section ne2p (2/3)) 1465).cs0,
              (nearestRowD (scale_cross_section ne2p (2/3)) 1465).beta0) := by
    rw [nearestPair, nearestRowD_of_ne_nil _ _ hs2]
    rfl
  have hcb : csBetaList (neon ne1s ne2s ne2p)
        [("1s", 616.4), ("2s", 1438.1), ("2p1/2", 1464.9), ("2p3/2", 1465)]
      = [((nearestRowD ne1s 616.4).cs0, (nearestRowD ne1s 616.4).beta0),
         ((nearestRowD ne2s 1438.1).cs0, (nearestRowD ne2s 1438.1).beta0),
         ((nearestRowD (scale_cross_section ne2p (1/3)) 1464.9).cs0,
          (nearestRowD (scale_cross_section ne2p (1/3)) 1464.9).beta0),
         ((nearestRowD (scale_cross_section ne2p (2/3)) 1465).cs0,
          (nearestRowD (scale_cross_section ne2p (2/3)) 1465).beta0)] := by
    simp only [csBetaList, neon, List.map_cons, List.map_nil, List.zip_cons_cons,
      List.zip_nil_right, List.filterMap_cons, List.filterMap_nil, e1, e2, e3, e4]
  refine ⟨⟨616.4, "1s", (nearestRowD ne1s 616.4).cs0,
      (nearestRowD ne1s 616.4).beta0, 1486.6⟩, ?_, rfl, rfl, rfl⟩
  rw [synthSpectrum_interactive_single, synthOne, hact, hcb]
  norm_num [List.filter_cons]

/-- Witness for C9: the scenario theorem applied with the placeholder table
standing in for all three source files. -/
theorem neon_scenario_witness :
    dummyTable ≠ ([] : Table) ∧
    ∃ p : Peak,
      synthSpectrum_interactive (neon dummyTable dummyTable dummyTable)
          [1486.6] 800 0 0 = [p] ∧
      p.shell = "1s" ∧ p.energy = 616.4 ∧ p.photon_energy = 1486.6 :=
  ⟨by simp [dummyTable],
   neon_scenario dummyTable dummyTable dummyTable (by simp [dummyTable])
     (by simp [dummyTable]) (by simp [dummyTable])⟩

/-! ### Claim C10: each peak's values come from one table row -/

/-- Claim C10: every peak the synthesizer emits takes its `cross_section` and
`beta` from one single row of one of the element's shell tables — the pair
`(cs0, beta0)` of the emitted peak always equals the `(cs0, beta0)` of an
actual sample; values from different samples are never combined. -/
theorem peak_from_single_row (element : Element) (setPhoton : List ℚ)
    (emax emin ret : ℚ) (p : Peak)
    (hp : p ∈ synthSpectrum_interactive element setPhoton emax emin ret) :
    ∃ t ∈ element.shells, ∃ s ∈ t, p.cross_section = s.cs0 ∧ p.beta = s.beta0 := by
  rw [synthSpectrum_interactive] at hp
  obtain ⟨l, hl, hpl⟩ := List.mem_flatten.mp hp
  obtain ⟨eV, heV, hle⟩ := List.mem_map.mp hl
  rw [← hle, synthOne] at hpl
  obtain ⟨q, hq, hpq⟩ := List.mem_map.mp hpl
  obtain ⟨qa, qb⟩ := q
  have hqz := (List.mem_filter.mp hq).1
  have hq2 : qb ∈ csBetaList element (activePairs element eV ret) :=
    (List.of_mem_zip hqz).2
  rw [csBetaList] at hq2
  obtain ⟨pr, hpr, hsome⟩ := List.mem_filterMap.mp hq2
  obtain ⟨pre, prt⟩ := pr
  have hprt : prt ∈ element.shells := (List.of_mem_zip hpr).2
  rw [nearestPair] at hsome
  obtain ⟨r, hr, hrq⟩ := Option.map_eq_some'.mp hsome
  refine ⟨prt, hprt, r, nearestRow_mem hr, ?_, ?_⟩
  · rw [← hpq, ← hrq]
  · rw [← hpq, ← hrq]

/-- The peak emitted for `singleSubshell` at photon energy 1486.6 in window
(0, 1500): kinetic energy 1465, nearest placeholder sample at photon energy
1000 (cs0 = 0.3, beta0 = 1.2). -/
def samplePeak : Peak :=
  ⟨1465, "2p3/2", 0.3, 1.2, 1486.6⟩

/-- Witness for C10: the single-row theorem applied to the concrete peak the
synthesizer emits for `singleSubshell`. -/
theorem peak_from_single_row_witness :
    samplePeak ∈ synthSpectrum_interactive singleSubshell [1486.6] 1500 0 0 ∧
    ∃ t ∈ singleSubshell.shells, ∃ s ∈ t,
      samplePeak.cross_section = s.cs0 ∧ samplePeak.beta = s.beta0 := by
  have hmem : samplePeak ∈ synthSpectrum_interactive singleSubshell [1486.6] 1500 0 0 := by
    norm_num [synthSpectrum_interactive, synthOne, activePairs, csBetaList, nearestPair,
      nearestRow, nearestIdx, diffList, minDiff, qabs, qmin, singleSubshell, dummyTable,
      samplePeak, List.findIdx_cons, List.filter_cons, List.filterMap_cons]
  exact ⟨hmem, peak_from_single_row singleSubshell [1486.6] 1500 0 0 samplePeak hmem⟩
